import Mathlib

/-!
Verification of the kraken-iac aws-ec2-instance repository against its
natural-language specification.

The development shallowly embeds the Go sources:
* `pkg/ec2instance_client` — the EC2 instance-pool client (RunInstances,
  GetInstances, WaitUntilRunning, TerminateInstances and the filter builder);
* the `option` package — Option values (literal or ValueFrom reference),
  the value resolver (ToApplicableValue) and the dependency-request builder;
* `internal/controller/ec2instance_controller.go` — the reconciliation
  controller (Reconcile, doFinalizerOperations, adjustMaxMinInstanceCount,
  makeInstanceTags, isMarkedForDeletion) and `toApplicableValues`.

External collaborators (the AWS EC2 endpoint, the Kubernetes API server) are
modelled as oracles: functions supplied as parameters giving the result of
each outgoing call.  Effectful code is embedded as pure functions that also
return the trace of provider calls issued, so that theorems can speak about
which calls a pass performs and in which order.
-/

deriving instance DecidableEq for Except

namespace AwsEc2

/-! ## Provider-side data model (aws-sdk-go-v2 types used by the repository) -/

/-- Model of `types.Instance`: the controller and client only ever read the
instance id (`TerminateInstances` dereferences `inst.InstanceId`); other
provider attributes are irrelevant to every function embedded here. -/
structure Instance where
  instanceId : String
deriving DecidableEq, Repr

/-- Model of `types.Filter`: a name and a list of accepted values. -/
structure Filter where
  name : String
  values : List String
deriving DecidableEq, Repr

/-- Model of `ec2.DescribeInstancesInput`: the filters plus the pagination
token of the AWS API.  The repository never sets `NextToken` (Go zero value
`nil`, modelled as `none`); the field is part of the provider request type
and is what a paging loop would have to use. -/
structure DescribeInstancesInput where
  filters : List Filter
  nextToken : Option String := none
deriving DecidableEq, Repr

/-- Model of `types.Reservation`: the instances of one reservation. -/
structure Reservation where
  instances : List Instance
deriving DecidableEq, Repr

/-- Model of `ec2.DescribeInstancesOutput`: one page of results together
with the token of the next page (`none` on the last page). -/
structure DescribeInstancesOutput where
  reservations : List Reservation
  nextToken : Option String
deriving DecidableEq, Repr

/-- Go `types.InstanceStateName` string constants used by the controller. -/
def instanceStateNamePending : String := "pending"

/-- Go `types.InstanceStateName` running constant. -/
def instanceStateNameRunning : String := "running"

/-! ## pkg/ec2instance_client — FilterOptions and the filter builder -/

/-- Embeds `FilterOptions`: tag-equality pairs plus optional state names.
The Go `MatchTags` map is modelled as an association list; a `nil`
`MatchStates` slice is the empty list. -/
structure FilterOptions where
  matchTags : List (String × String)
  matchStates : List String
deriving DecidableEq, Repr

/-- Embeds `FilterOptions.toFilters`: one `tag:<k>` filter per tag pair and,
when at least one state is given, a single `instance-state-name` filter
carrying all the states. -/
def FilterOptions.toFilters (f : FilterOptions) : List Filter :=
  (f.matchTags.map fun kv => Filter.mk ("tag:" ++ kv.1) [kv.2]) ++
    (if f.matchStates.length > 0 then [Filter.mk "instance-state-name" f.matchStates] else [])

/-- Embeds `constructDescribeInstancesInput`: wraps the filters in a request,
or an empty request when there are none.  `NextToken` is left unset in both
branches, exactly as in the source. -/
def constructDescribeInstancesInput (filters : List Filter) : DescribeInstancesInput :=
  if filters.length > 0 then { filters := filters } else { filters := [] }

/-! ## pkg/ec2instance_client — GetInstances, WaitUntilRunning, TerminateInstances

The AWS endpoint is an oracle.  `DescribeApi` answers one
`DescribeInstances` request; a paged result set is modelled by the oracle
honouring the `nextToken` of the request it receives. -/

/-- Oracle for the `ec2.Client.DescribeInstances` endpoint. -/
abbrev DescribeApi := DescribeInstancesInput → Except String DescribeInstancesOutput

/-- Embeds `ec2InstanceClient.GetInstances`: builds the filters, issues ONE
`DescribeInstances` request via `constructDescribeInstancesInput`, and
concatenates the instances of the reservations of that single response.
The source contains no `NextToken` loop: the token returned by the provider
is dropped. -/
def getInstances (api : DescribeApi) (filterOptions : FilterOptions) :
    Except String (List Instance) :=
  let filters := filterOptions.toFilters
  let describeInstancesInput := constructDescribeInstancesInput filters
  match api describeInstancesInput with
  | .error e => .error e
  | .ok out => .ok (out.reservations.foldl (fun acc r => acc ++ r.instances) [])

/-- Oracle for the `ec2.Client.TerminateInstances` endpoint, taking the
instance ids of the request.  The output structure is irrelevant to the
embedded code and is modelled as `Unit`. -/
abbrev TerminateApi := List String → Except String Unit

/-- Embeds `ec2InstanceClient.TerminateInstances`: builds one id per given
instance and unconditionally issues a single provider request with that id
list — there is no guard for the empty list.  The first component records
the provider requests issued (their id lists, in order) so that theorems can
count them; the second is the result returned to the caller. -/
def terminateInstances (api : TerminateApi) (instances : List Instance) :
    List (List String) × Except String Unit :=
  let instanceIds := instances.map (fun inst => inst.instanceId)
  ([instanceIds], api instanceIds)

/-- Outcome of one run of the SDK `InstanceRunningWaiter`: it either
succeeds, exceeds its max wait time, or surfaces a provider error. -/
inductive WaitOutcome
  | success
  | timeout
  | apiError (msg : String)
deriving DecidableEq, Repr

/-- Oracle for `ec2.NewInstanceRunningWaiter(...).Wait`, taking the request
and the max wait duration in seconds. -/
abbrev WaiterApi := DescribeInstancesInput → Nat → WaitOutcome

/-- Embeds `ec2InstanceClient.WaitUntilRunning`: builds the request and
returns the waiter error unchanged (`none` on success).  Both the timeout
and a provider error come back through the same single `error` return value;
a timeout carries the SDK waiter message, a provider error carries the
provider message. -/
def waitUntilRunning (waiter : WaiterApi) (filterOptions : FilterOptions)
    (durationSeconds : Nat) : Option String :=
  let filters := filterOptions.toFilters
  let describeInstancesInput := constructDescribeInstancesInput filters
  match waiter describeInstancesInput durationSeconds with
  | .success => none
  | .timeout => some "exceeded max wait time for InstanceRunning waiter"
  | .apiError msg => some msg

/-! ## option package — references, dependent values, resolver, builder -/

/-- Embeds `option.ValueFromConfigMap`: a config-map name and a key. -/
structure ValueFromConfigMap where
  name : String
  key : String
deriving DecidableEq, Repr

/-- Embeds `option.ValueFromSecret`: a secret name and a key. -/
structure ValueFromSecret where
  name : String
  key : String
deriving DecidableEq, Repr

/-- Embeds `option.ValueFromKrakenResource`: kind, name and field path. -/
structure ValueFromKrakenResource where
  kind : String
  name : String
  path : String
deriving DecidableEq, Repr

/-- Embeds `option.ValueFrom`: at most one of the three reference variants
(each field is a Go nil-able pointer, modelled as `Option`). -/
structure ValueFrom where
  configMap : Option ValueFromConfigMap
  secret : Option ValueFromSecret
  krakenResource : Option ValueFromKrakenResource
deriving DecidableEq, Repr

/-- Embeds `option.String` (a literal string or a reference). -/
structure OptionString where
  value : Option String
  valueFrom : Option ValueFrom
deriving DecidableEq, Repr

/-- Embeds `option.Int` (a literal int or a reference). -/
structure OptionInt where
  value : Option Int
  valueFrom : Option ValueFrom
deriving DecidableEq, Repr

/-- Model of the semi-structured payload obtained by `gabs.ParseJSON` plus
`.Data()`.  A JSON number unmarshals in Go to a `float64`; the numeric value
is modelled as a rational (exact for every decimal literal the tests and
spec exercise).  JSON `null` is omitted: `reflect.TypeOf(nil)` has no kind
and no embedded claim touches it. -/
inductive JSONData
  | jstring (s : String)
  | jnumber (q : ℚ)
  | jbool (b : Bool)
deriving DecidableEq, Repr

/-- Go `reflect.Kind` name of the dynamic type held by a `JSONData`
payload, as `reflect.TypeOf(data).Kind()` would report it. -/
def JSONData.goKind : JSONData → String
  | .jstring _ => "string"
  | .jnumber _ => "float64"
  | .jbool _ => "bool"

/-- Embeds `krakenv1alpha1.DependentValues`: the read-only snapshot of
dependent values, keyed by config-map name then key, and by kind then
resource name then path.  Go maps are modelled as association lists. -/
structure DependentValues where
  fromConfigMaps : List (String × List (String × String))
  fromKrakenResources : List (String × List (String × List (String × JSONData)))
deriving DecidableEq, Repr

/-- Embeds `getValueFromConfigMap`: name lookup then key lookup, each miss a
distinct named failure. -/
def getValueFromConfigMap (cmRef : ValueFromConfigMap)
    (cmVals : List (String × List (String × String))) : Except String String :=
  match cmVals.lookup cmRef.name with
  | none => .error ("ConfigMap " ++ cmRef.name ++ " does not exist in DependentValues")
  | some cm =>
    match cm.lookup cmRef.key with
    | none =>
        .error ("key " ++ cmRef.key ++ " does not exist in DependentValues ConfigMap "
          ++ cmRef.name)
    | some val => .ok val

/-- Embeds `getValueFromKrakenResource[string]` (the generic function at
`T = string`): the kind, name and path lookups each miss with a distinct
named failure; on a hit the payload must have dynamic kind `string`,
otherwise a wrong-shape failure naming both kinds is returned. -/
def getValueFromKrakenResourceString (krRef : ValueFromKrakenResource)
    (krVals : List (String × List (String × List (String × JSONData)))) :
    Except String String :=
  match krVals.lookup krRef.kind with
  | none => .error ("no entry for kind " ++ krRef.kind ++ " in DependentValues")
  | some kind =>
    match kind.lookup krRef.name with
    | none => .error ("no entry for resource " ++ krRef.name ++ " in DependentValues")
    | some resource =>
      match resource.lookup krRef.path with
      | none => .error ("no entry for path " ++ krRef.path ++ " in DependentValues")
      | some jsonVal =>
        match jsonVal with
        | .jstring s => .ok s
        | other =>
            .error ("provided value is of type " ++ other.goKind ++ "; expected type string")

/-- Embeds `getValueFromKrakenResource[float64]` (the generic function at
`T = float64`, the type every unmarshalled JSON number has in Go): same
lookup chain; on a hit the payload must have dynamic kind `float64`. -/
def getValueFromKrakenResourceFloat (krRef : ValueFromKrakenResource)
    (krVals : List (String × List (String × List (String × JSONData)))) :
    Except String ℚ :=
  match krVals.lookup krRef.kind with
  | none => .error ("no entry for kind " ++ krRef.kind ++ " in DependentValues")
  | some kind =>
    match kind.lookup krRef.name with
    | none => .error ("no entry for resource " ++ krRef.name ++ " in DependentValues")
    | some resource =>
      match resource.lookup krRef.path with
      | none => .error ("no entry for path " ++ krRef.path ++ " in DependentValues")
      | some jsonVal =>
        match jsonVal with
        | .jnumber q => .ok q
        | other =>
            .error ("provided value is of type " ++ other.goKind ++ "; expected type float64")

/-- Go integer conversion `int(f)` applied to the decoded `float64` in
`Int.ToApplicableValue`: truncation toward zero, modelled on the rational
carried by the payload as T-division of numerator by denominator. -/
def intOfFloatTrunc (q : ℚ) : Int := Int.tdiv q.num (q.den : Int)

/-- Helper for a character of Go `strconv.Atoi` input. -/
def decDigitVal (c : Char) : Option Nat :=
  if c.isDigit then some (c.toNat - 48) else none

/-- Digits of a Go `strconv.Atoi` input after the optional sign. -/
def decDigitsToNat (cs : List Char) : Option Nat :=
  cs.foldl (fun acc c => acc.bind fun n => (decDigitVal c).map fun d => n * 10 + d) (some 0)

/-- Embeds `strconv.Atoi` as used by `Int.ToApplicableValue` on config-map
strings: optional sign followed by at least one decimal digit; anything else
is an invalid-syntax error.  The 64-bit range check of Go is not modelled
(no embedded claim concerns overflow). -/
def goAtoi (s : String) : Except String Int :=
  let signAndDigits : Int × List Char :=
    match s.data with
    | '-' :: rest => (-1, rest)
    | '+' :: rest => (1, rest)
    | cs => (1, cs)
  if signAndDigits.2.isEmpty then
    .error ("strconv.Atoi: parsing " ++ s ++ ": invalid syntax")
  else
    match decDigitsToNat signAndDigits.2 with
    | none => .error ("strconv.Atoi: parsing " ++ s ++ ": invalid syntax")
    | some n => .ok (signAndDigits.1 * (n : Int))

/-- Embeds `option.String.ToApplicableValue`.  The Go return pair
`(*string, error)` is modelled as `Except String (Option String)`: a literal
wins, a missing `ValueFrom` is no value and no error, a config-map or
kraken-resource reference resolves through the snapshot, and a `ValueFrom`
with no non-nil variant pointer checked by the source (the secret-only case
included) falls through to the generic error. -/
def OptionString.toApplicableValue (s : OptionString) (dv : DependentValues) :
    Except String (Option String) :=
  match s.value with
  | some v => .ok (some v)
  | none =>
    match s.valueFrom with
    | none => .ok none
    | some vf =>
      match vf.configMap with
      | some cmRef =>
          match getValueFromConfigMap cmRef dv.fromConfigMaps with
          | .error e => .error e
          | .ok val => .ok (some val)
      | none =>
        match vf.krakenResource with
        | some krRef =>
            match getValueFromKrakenResourceString krRef dv.fromKrakenResources with
            | .error e => .error e
            | .ok val => .ok (some val)
        | none =>
            .error "ValueFrom object is not nil but does not contain any non-nil pointer references"

/-- Embeds `option.Int.ToApplicableValue`: like the string resolver, except
that a config-map hit goes through `strconv.Atoi` and a kraken-resource hit
is decoded as a `float64` and converted with Go `int(...)` truncation. -/
def OptionInt.toApplicableValue (i : OptionInt) (dv : DependentValues) :
    Except String (Option Int) :=
  match i.value with
  | some v => .ok (some v)
  | none =>
    match i.valueFrom with
    | none => .ok none
    | some vf =>
      match vf.configMap with
      | some cmRef =>
          match getValueFromConfigMap cmRef dv.fromConfigMaps with
          | .error e => .error e
          | .ok valString =>
              match goAtoi valString with
              | .error e => .error e
              | .ok val => .ok (some val)
      | none =>
        match vf.krakenResource with
        | some krRef =>
            match getValueFromKrakenResourceFloat krRef dv.fromKrakenResources with
            | .error e => .error e
            | .ok valFloat => .ok (some (intOfFloatTrunc valFloat))
        | none =>
            .error "ValueFrom object is not nil but does not contain any non-nil pointer references"

/-! ## option package and api types — dependency-request builder -/

/-- Embeds `krakenv1alpha1.ConfigMapDependency`. -/
structure ConfigMapDependency where
  name : String
  key : String
deriving DecidableEq, Repr

/-- Embeds `krakenv1alpha1.KrakenResourceDependency`: the reference plus the
requested scalar kind (`reflect.Kind`, modelled by its name). -/
structure KrakenResourceDependency where
  kind : String
  name : String
  path : String
  reflectKind : String
deriving DecidableEq, Repr

/-- Embeds `krakenv1alpha1.DependencyRequestSpec`: the typed dependency
descriptors accumulated by the builder. -/
structure DependencyRequestSpec where
  configMapDependencies : List ConfigMapDependency
  krakenResourceDependencies : List KrakenResourceDependency
deriving DecidableEq, Repr

/-- Result of running Go code that may `panic`: either the ordinary value or
a panic with its message.  A panic unwinds the goroutine and, uncaught,
terminates the process — it is not a value of the normal error channel. -/
inductive GoOutcome (α : Type)
  | ok (a : α)
  | panicked (msg : String)
deriving DecidableEq, Repr

/-- Embeds `ValueFromConfigMap.ToConfigMapDependency`. -/
def ValueFromConfigMap.toConfigMapDependency (vfcm : ValueFromConfigMap) :
    ConfigMapDependency :=
  { name := vfcm.name, key := vfcm.key }

/-- Embeds `ValueFromKrakenResource.ToKrakenResourceDependency`. -/
def ValueFromKrakenResource.toKrakenResourceDependency (vfkr : ValueFromKrakenResource)
    (kind : String) : KrakenResourceDependency :=
  { kind := vfkr.kind, name := vfkr.name, path := vfkr.path, reflectKind := kind }

/-- Embeds `ValueFrom.AddToDependencyRequestSpec`: appends a kraken-resource
descriptor, then a config-map descriptor, then — when the secret pointer is
non-nil — executes `panic("Unimplemented")`, modelled as the `panicked`
outcome. -/
def ValueFrom.addToDependencyRequestSpec (vf : ValueFrom) (dr : DependencyRequestSpec)
    (kind : String) : GoOutcome DependencyRequestSpec :=
  let dr1 :=
    match vf.krakenResource with
    | some kr =>
        { dr with krakenResourceDependencies :=
            dr.krakenResourceDependencies ++ [kr.toKrakenResourceDependency kind] }
    | none => dr
  let dr2 :=
    match vf.configMap with
    | some cm =>
        { dr1 with configMapDependencies :=
            dr1.configMapDependencies ++ [cm.toConfigMapDependency] }
    | none => dr1
  match vf.secret with
  | some _ => .panicked "Unimplemented"
  | none => .ok dr2

/-- Embeds the option-typed `v1alpha1.EC2InstanceSpec` of the api package
(fields `ImageID`, `InstanceType`, `MaxCount`, `MinCount`, `Tags`).  The
controller file embeds its own literal-field spec struct separately below. -/
structure EC2InstanceSpecOpt where
  imageID : OptionString
  instanceType : OptionString
  maxCount : OptionInt
  minCount : OptionInt
  tags : List (String × String)
deriving DecidableEq, Repr

/-- Embeds `EC2InstanceSpec.GenerateDependencyRequestSpec`: starts from an
empty request and, for each of the four fields whose `ValueFrom` is non-nil,
runs `AddToDependencyRequestSpec` with the matching `reflect` kind; a panic
raised by any step aborts the remaining steps, as in Go. -/
def EC2InstanceSpecOpt.generateDependencyRequestSpec (s : EC2InstanceSpecOpt) :
    GoOutcome DependencyRequestSpec :=
  let dr : DependencyRequestSpec := { configMapDependencies := [], krakenResourceDependencies := [] }
  let step1 : GoOutcome DependencyRequestSpec :=
    match s.imageID.valueFrom with
    | some vf => vf.addToDependencyRequestSpec dr "string"
    | none => .ok dr
  match step1 with
  | .panicked m => .panicked m
  | .ok dr =>
    let step2 : GoOutcome DependencyRequestSpec :=
      match s.instanceType.valueFrom with
      | some vf => vf.addToDependencyRequestSpec dr "string"
      | none => .ok dr
    match step2 with
    | .panicked m => .panicked m
    | .ok dr =>
      let step3 : GoOutcome DependencyRequestSpec :=
        match s.maxCount.valueFrom with
        | some vf => vf.addToDependencyRequestSpec dr "int"
        | none => .ok dr
      match step3 with
      | .panicked m => .panicked m
      | .ok dr =>
        match s.minCount.valueFrom with
        | some vf => vf.addToDependencyRequestSpec dr "int"
        | none => .ok dr

/-! ## internal/controller — toApplicableValues -/

/-- Embeds `ec2InstanceApplicableValues`: the four resolved scalars. -/
structure Ec2InstanceApplicableValues where
  imageID : String
  instanceType : String
  maxCount : Int
  minCount : Int
deriving DecidableEq, Repr

/-- Embeds `toApplicableValues`: resolves ImageID, InstanceType, MaxCount
and MinCount in that order against the dependent-values snapshot; a
resolution error is returned unchanged and a resolved no-value becomes a
named missing-value error, in both cases before the later fields are
examined. -/
def toApplicableValues (ec2Spec : EC2InstanceSpecOpt) (depValues : DependentValues) :
    Except String Ec2InstanceApplicableValues :=
  match ec2Spec.imageID.toApplicableValue depValues with
  | .error e => .error e
  | .ok none => .error "no applicable value provided for ImageID"
  | .ok (some imageID) =>
    match ec2Spec.instanceType.toApplicableValue depValues with
    | .error e => .error e
    | .ok none => .error "no applicable value provided for InstanceType"
    | .ok (some instanceType) =>
      match ec2Spec.maxCount.toApplicableValue depValues with
      | .error e => .error e
      | .ok none => .error "no applicable value provided for MaxCount"
      | .ok (some maxCount) =>
        match ec2Spec.minCount.toApplicableValue depValues with
        | .error e => .error e
        | .ok none => .error "no applicable value provided for MinCount"
        | .ok (some minCount) =>
            .ok { imageID := imageID, instanceType := instanceType,
                  maxCount := maxCount, minCount := minCount }

/-! ## internal/controller — data model of the reconciler -/

/-- Finalizer marker string of the controller. -/
def ec2InstanceFinalizer : String := "aws.kraken-iac.eoinfennessy.com/ec2-instance-finalizer"

/-- Identity tag key bound to the object name. -/
def nameTagKey : String := "kraken-name"

/-- Identity tag key bound to the object namespace. -/
def namespaceTagKey : String := "kraken-namespace"

/-- Ready condition type string. -/
def conditionTypeReady : String := "Ready"

/-- Embeds `metav1.Condition` (the fields the controller writes). -/
structure Condition where
  condType : String
  status : String
  reason : String
  message : String
deriving DecidableEq, Repr

/-- Embeds the spec struct the controller file reads: literal `MaxCount`,
`MinCount` (Go `int`, modelled as `Int`), `ImageId`, `InstanceType` and
`Tags`.  This is the shape `Reconcile` dereferences
(`ec2Instance.Spec.MaxCount` compared to `len(instances)` and so on). -/
structure EC2InstanceSpec where
  maxCount : Int
  minCount : Int
  imageId : String
  instanceType : String
  tags : List (String × String)
deriving DecidableEq, Repr

/-- Embeds the `EC2Instance` object as the controller sees it: identity,
deletion marker (`DeletionTimestamp != nil`), finalizer list, status
conditions and spec. -/
structure EC2Instance where
  name : String
  ns : String
  markedForDeletion : Bool
  finalizers : List String
  conditions : List Condition
  spec : EC2InstanceSpec
deriving DecidableEq, Repr

/-- Embeds `ctrl.Request`: the name and namespace of the triggering key. -/
structure Request where
  name : String
  ns : String
deriving DecidableEq, Repr

/-- Embeds the old-client `RunInstancesInput` the controller fills. -/
structure RunInstancesInput where
  maxCount : Int
  minCount : Int
  imageId : String
  instanceType : String
  tags : List (String × String)
deriving DecidableEq, Repr

/-- Embeds `controllerutil.ContainsFinalizer`. -/
def containsFinalizer (obj : EC2Instance) (f : String) : Bool :=
  obj.finalizers.contains f

/-- Embeds `controllerutil.AddFinalizer`: appends and reports `true` unless
the finalizer is already present. -/
def addFinalizer (obj : EC2Instance) (f : String) : EC2Instance × Bool :=
  if obj.finalizers.contains f then (obj, false)
  else ({ obj with finalizers := obj.finalizers ++ [f] }, true)

/-- Embeds `controllerutil.RemoveFinalizer`: removes every occurrence and
reports `true` when at least one was present. -/
def removeFinalizer (obj : EC2Instance) (f : String) : EC2Instance × Bool :=
  if obj.finalizers.contains f then
    ({ obj with finalizers := obj.finalizers.filter (fun x => x ≠ f) }, true)
  else (obj, false)

/-- Embeds `meta.SetStatusCondition`: replaces the condition of the same
type, or appends when none exists. -/
def setStatusCondition (conds : List Condition) (c : Condition) : List Condition :=
  if conds.any (fun x => x.condType = c.condType) then
    conds.map (fun x => if x.condType = c.condType then c else x)
  else conds ++ [c]

/-- Shorthand for the `meta.SetStatusCondition` call pattern of the
controller: every call in `Reconcile` sets the condition of type Ready with
a status, a reason and a message. -/
def setReadyCondition (obj : EC2Instance) (status reason message : String) : EC2Instance :=
  { obj with conditions :=
      setStatusCondition obj.conditions (Condition.mk conditionTypeReady status reason message) }

/-- Embeds `isMarkedForDeletion` (`DeletionTimestamp != nil`). -/
def isMarkedForDeletion (ec2Instance : EC2Instance) : Bool :=
  ec2Instance.markedForDeletion

/-- Embeds `adjustMaxMinInstanceCount`: the run-call bounds derived from the
observed count and the desired max and min. -/
def adjustMaxMinInstanceCount (current «max» «min» : Int) : Int × Int :=
  let newMax := «max» - current
  let newMin := if «min» - current < 1 then 1 else «min» - current
  (newMax, newMin)

/-- Associative-list model of one Go map assignment `m[k] = v`: replaces the
binding of `k` when present, otherwise adds it. -/
def mapAssign (m : List (String × String)) (k v : String) : List (String × String) :=
  if m.any (fun p => p.1 = k) then m.map (fun p => if p.1 = k then (k, v) else p)
  else m ++ [(k, v)]

/-- Embeds `makeInstanceTags`: copies the spec tags and then assigns the
name and namespace identity tags, overwriting same-keyed spec entries. -/
def makeInstanceTags (req : Request) (specTags : List (String × String)) :
    List (String × String) :=
  mapAssign (mapAssign specTags nameTagKey req.name) namespaceTagKey req.ns

/-- Embeds the `StateDeclaration` data built by
`constructStateDeclarationData`: the instance list and the spec.  The
`json.Marshal` step is a deterministic encoding of exactly these two fields
and cannot fail on them; it is modelled by the record itself. -/
structure StateDeclarationData where
  instances : List Instance
  spec : EC2InstanceSpec
deriving DecidableEq, Repr

/-! ## internal/controller — environment oracles and call traces -/

/-- Result of the initial `r.Client.Get`: not-found, another fetch error, or
the object. -/
inductive GetObjectResult
  | notFound
  | otherErr (msg : String)
  | found (obj : EC2Instance)
deriving DecidableEq, Repr

/-- Oracle for the Kubernetes API server within one pass: the object fetch
and the results of `r.Status().Update`, `r.Update` and
`controllerutil.CreateOrUpdate`. -/
structure KubeBehavior where
  getObject : GetObjectResult
  statusUpdateResult : Except String Unit
  updateResult : Except String Unit
  createOrUpdateResult : Except String Unit

/-- Oracle for the EC2 instance-pool client within one pass: results of the
four capability operations, as the interface the controller holds returns
them.  `waitResult` carries the single error channel of `WaitUntilRunning`
(`none` is success). -/
structure ProviderBehavior where
  getInstancesResult : FilterOptions → Except String (List Instance)
  terminateResult : List Instance → Except String Unit
  runResult : RunInstancesInput → Except String (List Instance)
  waitResult : FilterOptions → Nat → Option String

/-- Provider and resolver calls a reconcile pass can issue, in issue order.
`resolveValuesCall` stands for an invocation of the value resolver
(`toApplicableValues`); it is an element of the observation alphabet so the
specified resolution step can be stated, but the source `Reconcile` contains
no such invocation and the embedding below consequently never emits it. -/
inductive CallEvent
  | getInstancesCall (fo : FilterOptions)
  | terminateCall (instances : List Instance)
  | runCall (input : RunInstancesInput)
  | waitCall (fo : FilterOptions) (durationSeconds : Nat)
  | resolveValuesCall
  | upsertStateDeclarationCall (name : String) (ns : String) (data : StateDeclarationData)
deriving DecidableEq, Repr

/-- Whether an event is a terminate call. -/
def CallEvent.isTerminateCall : CallEvent → Bool
  | .terminateCall _ => true
  | _ => false

/-- Whether an event is a run (scale-up) call. -/
def CallEvent.isRunCall : CallEvent → Bool
  | .runCall _ => true
  | _ => false

/-- Embeds `ctrl.Result` plus the returned error. -/
structure ReconcileResult where
  requeue : Bool
  err : Option String
deriving DecidableEq, Repr

/-- Everything observable about one pass: the in-memory object at return
(`none` when the fetch produced no object), the result, and the trace of
provider calls issued. -/
structure ReconcileOutcome where
  obj : Option EC2Instance
  res : ReconcileResult
  events : List CallEvent
deriving Repr

/-- Error component of a Kubernetes client call result. -/
def errOf : Except String Unit → Option String
  | .ok _ => none
  | .error e => some e

/-- The identity filter of a request: both identity tags, with the given
state restriction. -/
def identityFilter (req : Request) (states : List String) : FilterOptions :=
  { matchTags := [(nameTagKey, req.name), (namespaceTagKey, req.ns)], matchStates := states }

/-! ## internal/controller — doFinalizerOperations and Reconcile -/

/-- Embeds `doFinalizerOperations`: fetches every instance carrying both
identity tags with NO state restriction (the source passes no `MatchStates`,
Go zero value nil), then terminates all of them; either failure is returned
to `Reconcile`.  The recorder event emitted on success is log-only and not
modelled.  Returns the calls issued and the error. -/
def doFinalizerOperations (pb : ProviderBehavior) (req : Request) :
    List CallEvent × Option String :=
  let fo := identityFilter req []
  match pb.getInstancesResult fo with
  | .error e => ([.getInstancesCall fo], some e)
  | .ok instances =>
    match pb.terminateResult instances with
    | .error e => ([.getInstancesCall fo, .terminateCall instances], some e)
    | .ok _ => ([.getInstancesCall fo, .terminateCall instances], none)

/-- Steady-state tail of `Reconcile` (everything after the deletion branch):
query pending+running instances, scale down, scale up and wait, requery
running instances, build and upsert the StateDeclaration, and write the
final Ready condition.  `SetControllerReference` cannot fail for the
registered scheme and is not modelled; `constructStateDeclarationData` is the
pure `StateDeclarationData` record. -/
def steadyReconcile (kb : KubeBehavior) (pb : ProviderBehavior) (req : Request)
    (ec2Instance : EC2Instance) : ReconcileOutcome :=
  let fo1 := identityFilter req [instanceStateNamePending, instanceStateNameRunning]
  match pb.getInstancesResult fo1 with
  | .error _ =>
      { obj := some (setReadyCondition ec2Instance "Unknown" "RetrievalFailed"
          "Failed to retrieve EC2 instances"),
        res := { requeue := true, err := errOf kb.statusUpdateResult },
        events := [.getInstancesCall fo1] }
  | .ok instances =>
    let scaleDown : Option (EC2Instance × List CallEvent) :=
      if (instances.length : Int) > ec2Instance.spec.maxCount then
        let terminationCount := ((instances.length : Int) - ec2Instance.spec.maxCount).toNat
        match pb.terminateResult (instances.take terminationCount) with
        | .error _ =>
            some (setReadyCondition ec2Instance "False" "TerminateFailed"
                "Failed to scale down EC2 instances",
              [.getInstancesCall fo1, .terminateCall (instances.take terminationCount)])
        | .ok _ => none
      else none
    match scaleDown with
    | some (obj, events) =>
        { obj := some obj, res := { requeue := true, err := errOf kb.updateResult },
          events := events }
    | none =>
      let eventsSoFar :=
        if (instances.length : Int) > ec2Instance.spec.maxCount then
          [.getInstancesCall fo1,
           .terminateCall (instances.take
             (((instances.length : Int) - ec2Instance.spec.maxCount).toNat))]
        else [CallEvent.getInstancesCall fo1]
      let scaleUp : Except (EC2Instance × ReconcileResult × List CallEvent) (List CallEvent) :=
        if (instances.length : Int) < ec2Instance.spec.maxCount then
          let counts := adjustMaxMinInstanceCount (instances.length : Int)
            ec2Instance.spec.maxCount ec2Instance.spec.minCount
          let tags := makeInstanceTags req ec2Instance.spec.tags
          let rin : RunInstancesInput :=
            { maxCount := counts.1, minCount := counts.2, imageId := ec2Instance.spec.imageId,
              instanceType := ec2Instance.spec.instanceType, tags := tags }
          match pb.runResult rin with
          | .error _ =>
              .error (setReadyCondition ec2Instance "False" "RunFailed"
                  "Failed to scale up EC2 instances",
                { requeue := true, err := errOf kb.updateResult },
                eventsSoFar ++ [.runCall rin])
          | .ok _ =>
            let foWait := identityFilter req [instanceStateNamePending, instanceStateNameRunning]
            match pb.waitResult foWait 120 with
            | some e =>
                .error (setReadyCondition ec2Instance "False" "WaitForRunningError"
                    ("Encountered error waiting for running state: " ++ e),
                  { requeue := true, err := errOf kb.statusUpdateResult },
                  eventsSoFar ++ [.runCall rin, .waitCall foWait 120])
            | none => .ok (eventsSoFar ++ [.runCall rin, .waitCall foWait 120])
        else .ok eventsSoFar
      match scaleUp with
      | .error (obj, res, events) => { obj := some obj, res := res, events := events }
      | .ok events1 =>
        let fo2 := identityFilter req [instanceStateNameRunning]
        match pb.getInstancesResult fo2 with
        | .error _ =>
            { obj := some (setReadyCondition ec2Instance "Unknown" "RetrievalFailed"
                "Failed to retrieve EC2 instances"),
              res := { requeue := true, err := errOf kb.statusUpdateResult },
              events := events1 ++ [.getInstancesCall fo2] }
        | .ok running =>
          let data : StateDeclarationData := { instances := running, spec := ec2Instance.spec }
          let events2 := events1 ++ [.getInstancesCall fo2,
            .upsertStateDeclarationCall ("ec2-" ++ req.name) req.ns data]
          match kb.createOrUpdateResult with
          | .error _ =>
              { obj := some (setReadyCondition ec2Instance "False" "StateDeclarationError"
                  "Failed to create/update StateDeclaration"),
                res := { requeue := false, err := errOf kb.statusUpdateResult },
                events := events2 }
          | .ok _ =>
              { obj := some (setReadyCondition ec2Instance "True" "Reconciled"
                  "Desired state has been reached"),
                res := { requeue := false, err := errOf kb.statusUpdateResult },
                events := events2 }

/-- Embeds `Reconcile` after a successful object fetch: initial-condition
write, finalizer addition, the deletion branch, and otherwise the steady
tail. -/
def reconcileLoaded (kb : KubeBehavior) (pb : ProviderBehavior) (req : Request)
    (ec2Instance : EC2Instance) : ReconcileOutcome :=
  if ec2Instance.conditions.isEmpty then
    { obj := some (setReadyCondition ec2Instance "Unknown" "Reconciling"
        "Initial reconciliation"),
      res := { requeue := false, err := errOf kb.statusUpdateResult },
      events := [] }
  else if ¬ containsFinalizer ec2Instance ec2InstanceFinalizer then
    let added := addFinalizer ec2Instance ec2InstanceFinalizer
    if ¬ added.2 then
      { obj := some added.1, res := { requeue := true, err := none }, events := [] }
    else
      { obj := some added.1, res := { requeue := false, err := errOf kb.updateResult },
        events := [] }
  else if isMarkedForDeletion ec2Instance ∧ containsFinalizer ec2Instance ec2InstanceFinalizer then
    let fin := doFinalizerOperations pb req
    match fin.2 with
    | some e =>
        { obj := some ec2Instance, res := { requeue := false, err := some e },
          events := fin.1 }
    | none =>
      let removed := removeFinalizer ec2Instance ec2InstanceFinalizer
      if ¬ removed.2 then
        { obj := some removed.1, res := { requeue := true, err := none }, events := fin.1 }
      else
        { obj := some removed.1, res := { requeue := false, err := errOf kb.updateResult },
          events := fin.1 }
  else
    steadyReconcile kb pb req ec2Instance

/-- Embeds `Reconcile`: dispatches on the object fetch (not-found is a
terminal no-op, another fetch error is returned) and otherwise runs the
loaded-object logic. -/
def reconcile (kb : KubeBehavior) (pb : ProviderBehavior) (req : Request) :
    ReconcileOutcome :=
  match kb.getObject with
  | .notFound => { obj := none, res := { requeue := false, err := none }, events := [] }
  | .otherErr e => { obj := none, res := { requeue := false, err := some e }, events := [] }
  | .found ec2Instance => reconcileLoaded kb pb req ec2Instance

/-- Ready-condition reason recorded on the object of an outcome, when the
object and the condition exist. -/
def readyReason (o : ReconcileOutcome) : Option String :=
  match o.obj with
  | none => none
  | some obj =>
    match obj.conditions.find? (fun c => c.condType = conditionTypeReady) with
    | none => none
    | some c => some c.reason

/-! ## Concrete fixtures for witnesses and counterexamples -/

/-- Witness request. -/
def reqW : Request := { name := "web", ns := "prod" }

/-- Witness instance one. -/
def iW1 : Instance := { instanceId := "i-1" }

/-- Witness instance two. -/
def iW2 : Instance := { instanceId := "i-2" }

/-- Witness spec: desired max and min of one, one user tag and a user entry
colliding with the name identity tag key. -/
def specW : EC2InstanceSpec :=
  { maxCount := 1, minCount := 1, imageId := "ami-1234abcd", instanceType := "t2.nano",
    tags := [("team", "a"), ("kraken-name", "user-set")] }

/-- Initial Ready condition as the controller writes it on first sight. -/
def readyInitCondW : Condition :=
  { condType := "Ready", status := "Unknown", reason := "Reconciling",
    message := "Initial reconciliation" }

/-- Witness steady-state object: conditions initialized, finalizer present,
not marked for deletion. -/
def objW : EC2Instance :=
  { name := "web", ns := "prod", markedForDeletion := false,
    finalizers := [ec2InstanceFinalizer], conditions := [readyInitCondW], spec := specW }

/-- Witness object marked for deletion. -/
def objDelW : EC2Instance := { objW with markedForDeletion := true }

/-- Kubernetes oracle with every store call succeeding, serving `objW`. -/
def kbOkW : KubeBehavior :=
  { getObject := .found objW, statusUpdateResult := .ok (), updateResult := .ok (),
    createOrUpdateResult := .ok () }

/-- Kubernetes oracle serving the deletion-marked object. -/
def kbDelW : KubeBehavior := { kbOkW with getObject := .found objDelW }

/-- Provider oracle for the deletion witness: the unrestricted identity
query returns two instances, termination succeeds. -/
def pbDelW : ProviderBehavior :=
  { getInstancesResult := fun fo => if fo.matchStates = [] then .ok [iW1, iW2] else .ok [],
    terminateResult := fun _ => .ok (),
    runResult := fun _ => .ok [],
    waitResult := fun _ _ => none }

/-- Provider oracle for the scale-down witness: two pending-or-running
instances against a desired max of one; the running-only requery sees one. -/
def pbScaleDownW : ProviderBehavior :=
  { getInstancesResult := fun fo =>
      if fo.matchStates = [instanceStateNameRunning] then .ok [iW1] else .ok [iW1, iW2],
    terminateResult := fun _ => .ok (),
    runResult := fun _ => .ok [],
    waitResult := fun _ _ => none }

/-- Provider oracle for a clean scale-up pass: no instance exists, the run
call succeeds, the wait succeeds, the requery sees the created instance. -/
def pbScaleUpW : ProviderBehavior :=
  { getInstancesResult := fun fo =>
      if fo.matchStates = [instanceStateNameRunning] then .ok [iW1] else .ok [],
    terminateResult := fun _ => .ok (),
    runResult := fun _ => .ok [iW1],
    waitResult := fun _ _ => none }

/-- Provider oracle whose wait step times out: the waiter reports
`WaitOutcome.timeout` and the client collapses it into its error return. -/
def pbWaitTimeoutW : ProviderBehavior :=
  { pbScaleUpW with
    waitResult := fun fo d => waitUntilRunning (fun _ _ => .timeout) fo d }

/-- Provider oracle whose wait step hits a provider error: the waiter
reports `WaitOutcome.apiError` and the client collapses it into the same
error return. -/
def pbWaitApiErrW : ProviderBehavior :=
  { pbScaleUpW with
    waitResult := fun fo d =>
      waitUntilRunning (fun _ _ => .apiError "api error: InsufficientInstanceCapacity") fo d }

/-- Two-page DescribeInstances provider: the first page holds `iW1` and a
next-page token, the page at that token holds `iW2`. -/
def pagedApiW : DescribeApi := fun input =>
  match input.nextToken with
  | none => .ok { reservations := [{ instances := [iW1] }], nextToken := some "t1" }
  | some t =>
      if t = "t1" then .ok { reservations := [{ instances := [iW2] }], nextToken := none }
      else .error "bad token"

/-- Filter used against the paged provider. -/
def foPagedW : FilterOptions := identityFilter reqW []

/-- TerminateInstances endpoint model that, like AWS, rejects a request
whose id list is empty. -/
def apiMissingParamW : TerminateApi := fun ids =>
  if ids.isEmpty then
    .error "MissingParameter: the request must contain the parameter InstanceIds"
  else .ok ()

/-- Provider oracle for a deletion pass that finds no instances: every
query returns the empty list and termination succeeds. -/
def pbDelEmptyW : ProviderBehavior :=
  { getInstancesResult := fun _ => .ok [],
    terminateResult := fun _ => .ok (),
    runResult := fun _ => .ok [],
    waitResult := fun _ _ => none }

/-- Secret-only ValueFrom reference. -/
def secretVFW : ValueFrom :=
  { configMap := none, secret := some { name := "creds", key := "token" },
    krakenResource := none }

/-- Option-typed spec whose MaxCount carries a secret reference and whose
other fields are literals. -/
def specSecretW : EC2InstanceSpecOpt :=
  { imageID := { value := some "ami-1234abcd", valueFrom := none },
    instanceType := { value := some "t2.nano", valueFrom := none },
    maxCount := { value := none, valueFrom := some secretVFW },
    minCount := { value := some 1, valueFrom := none },
    tags := [] }

/-- Int option holding only the secret reference. -/
def optSecretW : OptionInt := { value := none, valueFrom := some secretVFW }

/-- Empty dependent-values snapshot. -/
def dvEmptyW : DependentValues := { fromConfigMaps := [], fromKrakenResources := [] }

/-- Cross-resource reference of the truncation witness. -/
def krRef39W : ValueFromKrakenResource :=
  { kind := "StateDeclaration", name := "dep", path := "spec.count" }

/-- ValueFrom holding only the cross-resource reference of the truncation
witness. -/
def vfKr39W : ValueFrom :=
  { configMap := none, secret := none, krakenResource := some krRef39W }

/-- Dependent-values snapshot whose payload at the referenced path is the
JSON number 3.9. -/
def dv39W : DependentValues :=
  { fromConfigMaps := [],
    fromKrakenResources :=
      [("StateDeclaration", [("dep", [("spec.count", JSONData.jnumber ((39 : ℚ) / 10))])])] }

/-- Int option resolving through the cross-resource reference. -/
def optInt39W : OptionInt := { value := none, valueFrom := some vfKr39W }

/-- Option-typed spec whose ImageID has neither a literal nor a reference. -/
def specNoImageW : EC2InstanceSpecOpt :=
  { imageID := { value := none, valueFrom := none },
    instanceType := { value := some "t2.nano", valueFrom := none },
    maxCount := { value := some 1, valueFrom := none },
    minCount := { value := some 1, valueFrom := none },
    tags := [] }

/-! ## Theorems -/

/-- C4: for all integers current, max, min, `adjustMaxMinInstanceCount`
returns newMax = max − current and newMin = max(min − current, 1); in
particular (0, 3, 3) yields (3, 3), (2, 3, 3) yields (1, 1), and
(3, 5, 1) yields newMin = 1 rather than −2. -/
theorem c4_adjust_max_min :
    (∀ current mx mn : Int,
      adjustMaxMinInstanceCount current mx mn = (mx - current, max (mn - current) 1)) ∧
    adjustMaxMinInstanceCount 0 3 3 = (3, 3) ∧
    adjustMaxMinInstanceCount 2 3 3 = (1, 1) ∧
    (adjustMaxMinInstanceCount 3 5 1).2 = 1 := by
  refine ⟨fun current mx mn => ?_, by decide, by decide, by decide⟩
  unfold adjustMaxMinInstanceCount
  rcases lt_or_ge (mn - current) 1 with h | h
  · simp only [if_pos h, Prod.mk.injEq, true_and]
    exact (max_eq_right h.le).symm
  · simp only [if_neg (not_lt.mpr h), Prod.mk.injEq, true_and]
    exact (max_eq_left h).symm

/-- C3: the instance-pool client is claimed to exhaustively page the
provider result set; evaluated against a provider whose result set spans
two pages, the embedded `getInstances` returns only the first page
(`iW1`), although the provider hands back a next-page token whose page
holds `iW2` — the source issues a single DescribeInstances request and
never follows `NextToken`. -/
theorem c3_get_instances_first_page_only :
    getInstances pagedApiW foPagedW = .ok [iW1] ∧
    pagedApiW { filters := foPagedW.toFilters, nextToken := some "t1" } =
      .ok { reservations := [{ instances := [iW2] }], nextToken := none } ∧
    getInstances pagedApiW foPagedW ≠ .ok [iW1, iW2] := by
  decide

/-- C8 counterexample: called with the empty instance list, the embedded
`terminateInstances` is not a request-free no-op success — it issues
exactly one provider request carrying an empty id list, and returns the
provider rejection of that request. -/
theorem c8_empty_terminate_counterexample :
    (terminateInstances apiMissingParamW []).1 = [[]] ∧
    (terminateInstances apiMissingParamW []).2 =
      .error "MissingParameter: the request must contain the parameter InstanceIds" := by
  decide

/-- C6 counterexample: with a secret reference on the MaxCount field, the
dependency-request builder does not produce a catchable not-implemented
outcome through the normal error channel: it panics (process-terminating
`panic("Unimplemented")`), and the resolver applied to the secret-only
option returns the generic no-non-nil-pointer error rather than a named
not-implemented failure. -/
theorem c6_secret_panic_counterexample :
    specSecretW.generateDependencyRequestSpec = GoOutcome.panicked "Unimplemented" ∧
    optSecretW.toApplicableValue dvEmptyW =
      .error "ValueFrom object is not nil but does not contain any non-nil pointer references" := by
  decide

/-- C6 amended: for every Option carrying a secret-only reference, the
builder step panics with message Unimplemented (an uncatchable,
process-terminating outcome, not an error value), and both resolvers
return the generic no-non-nil-pointer error rather than a named
not-implemented failure. -/
theorem c6_secret_outcomes (vf : ValueFrom) (sec : ValueFromSecret)
    (dr : DependencyRequestSpec) (kind : String) (i : OptionInt) (os : OptionString)
    (dv : DependentValues)
    (hsec : vf.secret = some sec) (hcm : vf.configMap = none) (hkr : vf.krakenResource = none)
    (hival : i.value = none) (hivf : i.valueFrom = some vf)
    (hosval : os.value = none) (hosvf : os.valueFrom = some vf) :
    vf.addToDependencyRequestSpec dr kind = GoOutcome.panicked "Unimplemented" ∧
    i.toApplicableValue dv =
      .error "ValueFrom object is not nil but does not contain any non-nil pointer references" ∧
    os.toApplicableValue dv =
      .error "ValueFrom object is not nil but does not contain any non-nil pointer references" := by
  refine ⟨?_, ?_, ?_⟩
  · simp [ValueFrom.addToDependencyRequestSpec, hsec]
  · simp [OptionInt.toApplicableValue, hival, hivf, hcm, hkr]
  · simp [OptionString.toApplicableValue, hosval, hosvf, hcm, hkr]

/-- C6 witness: the amended statement evaluated at the secret-carrying
fixtures. -/
theorem c6_secret_outcomes_witness :
    secretVFW.addToDependencyRequestSpec
        { configMapDependencies := [], krakenResourceDependencies := [] } "int" =
      GoOutcome.panicked "Unimplemented" ∧
    optSecretW.toApplicableValue dvEmptyW =
      .error "ValueFrom object is not nil but does not contain any non-nil pointer references" := by
  have h := c6_secret_outcomes secretVFW { name := "creds", key := "token" }
    { configMapDependencies := [], krakenResourceDependencies := [] } "int"
    optSecretW { value := none, valueFrom := some secretVFW } dvEmptyW
    rfl rfl rfl rfl rfl rfl rfl
  exact ⟨h.1, h.2.1⟩

/-- Go map assignment on a key absent from the head commutes with cons. -/
theorem mapAssign_cons_ne (a : String × String) (as : List (String × String))
    (k v : String) (ha : a.1 ≠ k) :
    mapAssign (a :: as) k v = a :: mapAssign as k v := by
  unfold mapAssign
  rcases hany : as.any (fun p => p.1 = k) with _ | _
  · simp [List.any_cons, ha, hany]
  · simp [List.any_cons, ha, hany]

/-- Lookup of a different key is unchanged by the replacing map of
`mapAssign`. -/
theorem lookup_replaceMap_ne (as : List (String × String)) (k v k' : String)
    (h : k' ≠ k) :
    (as.map (fun p => if p.1 = k then (k, v) else p)).lookup k' = as.lookup k' := by
  induction as with
  | nil => rfl
  | cons a as ih =>
    obtain ⟨a1, a2⟩ := a
    simp only [List.map_cons]
    by_cases ha : a1 = k
    · rw [if_pos ha]
      simp only [List.lookup]
      rw [show (k' == k) = false by simp [h], show (k' == a1) = false by simp [ha ▸ h]]
      exact ih
    · rw [if_neg ha]
      simp only [List.lookup]
      rcases hbeq : k' == a1 with _ | _
      · exact ih
      · rfl

/-- Lookup of the assigned key after a Go map assignment. -/
theorem lookup_mapAssign_self (m : List (String × String)) (k v : String) :
    (mapAssign m k v).lookup k = some v := by
  induction m with
  | nil => simp [mapAssign, List.lookup]
  | cons a as ih =>
    obtain ⟨a1, a2⟩ := a
    by_cases ha : a1 = k
    · unfold mapAssign
      simp only [List.any_cons, decide_eq_true_eq, ha, eq_self_iff_true, true_or, if_true,
        List.map_cons, if_pos ha, List.lookup, beq_self_eq_true]
    · rw [mapAssign_cons_ne ⟨a1, a2⟩ as k v ha]
      simp only [List.lookup]
      rw [show (k == a1) = false by simp [Ne.symm ha]]
      exact ih

/-- Lookup of any other key is unchanged by a Go map assignment. -/
theorem lookup_mapAssign_ne (m : List (String × String)) (k v k' : String)
    (h : k' ≠ k) :
    (mapAssign m k v).lookup k' = m.lookup k' := by
  unfold mapAssign
  rcases hany : m.any (fun p => p.1 = k) with _ | _
  · rw [if_neg (by simp [hany])]
    clear hany
    induction m with
    | nil =>
      simp only [List.nil_append, List.lookup]
      rw [show (k' == k) = false by simp [h]]
    | cons a as ih =>
      obtain ⟨a1, a2⟩ := a
      simp only [List.cons_append, List.lookup]
      rcases hbeq : k' == a1 with _ | _
      · exact ih
      · rfl
  · rw [if_pos (by simp [hany])]
    exact lookup_replaceMap_ne m k v k' h

/-- C10: the tag map passed to the run call binds the name identity tag to
the request name and the namespace identity tag to the request namespace,
overriding any same-keyed user entries of the spec tag map, and leaves the
binding of every other key exactly as in the spec tag map. -/
theorem c10_identity_tags_override (req : Request) (specTags : List (String × String)) :
    (makeInstanceTags req specTags).lookup nameTagKey = some req.name ∧
    (makeInstanceTags req specTags).lookup namespaceTagKey = some req.ns ∧
    ∀ k, k ≠ nameTagKey → k ≠ namespaceTagKey →
      (makeInstanceTags req specTags).lookup k = specTags.lookup k := by
  unfold makeInstanceTags
  refine ⟨?_, lookup_mapAssign_self _ _ _, ?_⟩
  · rw [lookup_mapAssign_ne _ _ _ _ (by decide : nameTagKey ≠ namespaceTagKey)]
    exact lookup_mapAssign_self _ _ _
  · intro k h1 h2
    rw [lookup_mapAssign_ne _ _ _ _ h2, lookup_mapAssign_ne _ _ _ _ h1]

/-- C10 witness: at the witness request and spec tags, both identity tags
are bound to the request identity (the user entry under the name tag key is
overridden) and the unrelated user tag is preserved. -/
theorem c10_identity_tags_witness :
    (makeInstanceTags reqW specW.tags).lookup nameTagKey = some "web" ∧
    (makeInstanceTags reqW specW.tags).lookup namespaceTagKey = some "prod" ∧
    (makeInstanceTags reqW specW.tags).lookup "team" = some "a" := by
  have h := c10_identity_tags_override reqW specW.tags
  refine ⟨h.1, h.2.1, ?_⟩
  rw [h.2.2 "team" (by decide) (by decide)]
  decide

/-- Go conversion of the decoded number to an integer is truncation toward
zero: the floor for a nonnegative value and the ceiling for a negative
value. -/
theorem intOfFloatTrunc_eq_trunc (q : ℚ) :
    intOfFloatTrunc q = if 0 ≤ q then ⌊q⌋ else ⌈q⌉ := by
  unfold intOfFloatTrunc
  by_cases h : 0 ≤ q
  · rw [if_pos h, Rat.floor_def]
    exact Int.tdiv_eq_ediv (Rat.num_nonneg.mpr h) (Int.natCast_nonneg q.den)
  · rw [if_neg h]
    have hq : 0 ≤ -q := neg_nonneg.mpr (le_of_lt (not_le.mp h))
    have h2 : Int.tdiv (-q).num ((-q).den : Int) = ⌊-q⌋ := by
      rw [Rat.floor_def]
      exact Int.tdiv_eq_ediv (Rat.num_nonneg.mpr hq) (Int.natCast_nonneg (-q).den)
    rw [Rat.neg_num, Rat.neg_den, Int.neg_tdiv, Int.floor_neg] at h2
    omega

/-- C9: for every Int option resolved through a cross-resource reference
whose payload is a JSON number q, the resolver succeeds with the number
truncated toward zero (floor for nonnegative q, ceiling for negative q),
deterministically as a function of q. -/
theorem c9_kraken_int_truncates (i : OptionInt) (dv : DependentValues)
    (vf : ValueFrom) (krRef : ValueFromKrakenResource) (q : ℚ)
    (hival : i.value = none) (hivf : i.valueFrom = some vf)
    (hcm : vf.configMap = none) (hkr : vf.krakenResource = some krRef)
    (hpayload : getValueFromKrakenResourceFloat krRef dv.fromKrakenResources = .ok q) :
    i.toApplicableValue dv = .ok (some (if 0 ≤ q then ⌊q⌋ else ⌈q⌉)) := by
  unfold OptionInt.toApplicableValue
  simp only [hival, hivf, hcm, hkr, hpayload, intOfFloatTrunc_eq_trunc]

/-- C9 witness: the payload 3.9 (the rational 39/10), requested as an
integer, resolves to 3. -/
theorem c9_kraken_int_truncates_witness :
    optInt39W.toApplicableValue dv39W = .ok (some 3) := by
  have h := c9_kraken_int_truncates optInt39W dv39W vfKr39W krRef39W ((39 : ℚ) / 10)
    rfl rfl rfl rfl rfl
  rw [h]
  norm_num

/-- C1: a reconcile pass on an object marked for deletion with the
finalizer present fetches every instance matching both identity tags with
no state restriction; when the fetch and the terminate succeed, the pass
issues exactly those two provider calls, removes the finalizer and returns
no error; when the fetch or the terminate fails, the pass returns that
error with the finalizer left in place; and in every case no scale-up
(run) call is issued. -/
theorem c1_deletion_cleanup (kb : KubeBehavior) (pb : ProviderBehavior) (req : Request)
    (obj : EC2Instance)
    (hget : kb.getObject = .found obj)
    (hconds : obj.conditions ≠ [])
    (hfin : containsFinalizer obj ec2InstanceFinalizer = true)
    (hdel : isMarkedForDeletion obj = true)
    (hupd : kb.updateResult = .ok ()) :
    ((identityFilter req []).matchTags =
      [(nameTagKey, req.name), (namespaceTagKey, req.ns)]) ∧
    ((identityFilter req []).matchStates = []) ∧
    (∀ l, pb.getInstancesResult (identityFilter req []) = .ok l →
        pb.terminateResult l = .ok () →
        (reconcile kb pb req).events =
          [.getInstancesCall (identityFilter req []), .terminateCall l] ∧
        (reconcile kb pb req).res.err = none ∧
        ∃ obj2, (reconcile kb pb req).obj = some obj2 ∧
          containsFinalizer obj2 ec2InstanceFinalizer = false) ∧
    (∀ e, pb.getInstancesResult (identityFilter req []) = .error e →
        (reconcile kb pb req).events = [.getInstancesCall (identityFilter req [])] ∧
        (reconcile kb pb req).res.err = some e ∧
        (reconcile kb pb req).obj = some obj) ∧
    (∀ l e, pb.getInstancesResult (identityFilter req []) = .ok l →
        pb.terminateResult l = .error e →
        (reconcile kb pb req).events =
          [.getInstancesCall (identityFilter req []), .terminateCall l] ∧
        (reconcile kb pb req).res.err = some e ∧
        (reconcile kb pb req).obj = some obj) ∧
    (∀ ev ∈ (reconcile kb pb req).events, ev.isRunCall = false) := by
  have h1 : obj.conditions.isEmpty = false := by
    cases hc : obj.conditions
    · exact absurd hc hconds
    · rfl
  have hmem : ec2InstanceFinalizer ∈ obj.finalizers := by
    have h : obj.finalizers.contains ec2InstanceFinalizer = true := hfin
    simpa using h
  have hA : ∀ l, pb.getInstancesResult (identityFilter req []) = .ok l →
      pb.terminateResult l = .ok () →
      (reconcile kb pb req).events =
        [.getInstancesCall (identityFilter req []), .terminateCall l] ∧
      (reconcile kb pb req).res.err = none ∧
      ∃ obj2, (reconcile kb pb req).obj = some obj2 ∧
        containsFinalizer obj2 ec2InstanceFinalizer = false := by
    intro l hl hterm2
    unfold reconcile
    rw [hget]
    unfold reconcileLoaded
    simp only [h1, Bool.false_eq_true, if_false, hfin, hdel, not_true, and_self, if_true,
      doFinalizerOperations, hl, hterm2]
    simp [removeFinalizer, hmem, hupd, errOf, containsFinalizer, List.mem_filter]
  have hB : ∀ e, pb.getInstancesResult (identityFilter req []) = .error e →
      (reconcile kb pb req).events = [.getInstancesCall (identityFilter req [])] ∧
      (reconcile kb pb req).res.err = some e ∧
      (reconcile kb pb req).obj = some obj := by
    intro e he
    unfold reconcile
    rw [hget]
    unfold reconcileLoaded
    simp only [h1, Bool.false_eq_true, if_false, hfin, hdel, not_true, and_self, if_true,
      doFinalizerOperations, he]
  have hC : ∀ l e, pb.getInstancesResult (identityFilter req []) = .ok l →
      pb.terminateResult l = .error e →
      (reconcile kb pb req).events =
        [.getInstancesCall (identityFilter req []), .terminateCall l] ∧
      (reconcile kb pb req).res.err = some e ∧
      (reconcile kb pb req).obj = some obj := by
    intro l e hl hterm2
    unfold reconcile
    rw [hget]
    unfold reconcileLoaded
    simp only [h1, Bool.false_eq_true, if_false, hfin, hdel, not_true, and_self, if_true,
      doFinalizerOperations, hl, hterm2]
  refine ⟨rfl, rfl, hA, hB, hC, ?_⟩
  intro ev hev
  rcases hl : pb.getInstancesResult (identityFilter req []) with e | l
  · rw [(hB e hl).1] at hev
    simp only [List.mem_singleton] at hev
    subst hev
    rfl
  · rcases hterm2 : pb.terminateResult l with e | u
    · rw [(hC l e hl hterm2).1] at hev
      simp only [List.mem_cons, List.mem_singleton, List.not_mem_nil, or_false] at hev
      rcases hev with h | h
      · subst h; rfl
      · subst h; rfl
    · cases u
      rw [(hA l hl hterm2).1] at hev
      simp only [List.mem_cons, List.mem_singleton, List.not_mem_nil, or_false] at hev
      rcases hev with h | h
      · subst h; rfl
      · subst h; rfl

/-- C1 witness: the deletion pass on the witness object terminates both
fetched instances after the state-unrestricted identity query and returns
no error. -/
theorem c1_deletion_cleanup_witness :
    (reconcile kbDelW pbDelW reqW).events =
      [CallEvent.getInstancesCall (identityFilter reqW []),
       CallEvent.terminateCall [iW1, iW2]] ∧
    (reconcile kbDelW pbDelW reqW).res.err = none := by
  have h := c1_deletion_cleanup kbDelW pbDelW reqW objDelW rfl (by decide) (by decide)
    rfl rfl
  have h2 := h.2.2.1 [iW1, iW2] (by decide) rfl
  exact ⟨h2.1, h2.2.1⟩

/-- C2 counterexample: a concrete steady pass issues its provider calls
(one run call included) with the run input drawn from the literal spec
fields, and the trace contains no value-resolution step — the controller
never invokes the resolver against a dependent-values snapshot before
computing the instance delta. -/
theorem c2_no_resolution_counterexample :
    (reconcile kbOkW pbScaleUpW reqW).events.contains CallEvent.resolveValuesCall = false ∧
    (reconcile kbOkW pbScaleUpW reqW).events.countP CallEvent.isRunCall = 1 ∧
    (reconcile kbOkW pbScaleUpW reqW).events =
      [CallEvent.getInstancesCall
        (identityFilter reqW [instanceStateNamePending, instanceStateNameRunning]),
       CallEvent.runCall
        { maxCount := 1, minCount := 1, imageId := specW.imageId,
          instanceType := specW.instanceType, tags := makeInstanceTags reqW specW.tags },
       CallEvent.waitCall
        (identityFilter reqW [instanceStateNamePending, instanceStateNameRunning]) 120,
       CallEvent.getInstancesCall (identityFilter reqW [instanceStateNameRunning]),
       CallEvent.upsertStateDeclarationCall "ec2-web" "prod"
        { instances := [iW1], spec := specW }] := by
  decide

/-- C2 amended: the resolver function toApplicableValues does resolve the
four required fields against the dependent-values snapshot and aborts with
an error as soon as one resolves to no value or to a resolution error —
but the reconcile pass of the controller never invokes it (see the
counterexample); success of toApplicableValues requires all four fields to
have resolved. -/
theorem c2_resolver_aborts_on_missing_value (s : EC2InstanceSpecOpt) (dv : DependentValues) :
    (s.imageID.toApplicableValue dv = .ok none →
      toApplicableValues s dv = .error "no applicable value provided for ImageID") ∧
    (∀ e, s.imageID.toApplicableValue dv = .error e → toApplicableValues s dv = .error e) ∧
    (∀ av, toApplicableValues s dv = .ok av →
      s.imageID.toApplicableValue dv = .ok (some av.imageID) ∧
      s.instanceType.toApplicableValue dv = .ok (some av.instanceType) ∧
      s.maxCount.toApplicableValue dv = .ok (some av.maxCount) ∧
      s.minCount.toApplicableValue dv = .ok (some av.minCount)) := by
  refine ⟨?_, ?_, ?_⟩
  · intro h
    unfold toApplicableValues
    simp only [h]
  · intro e h
    unfold toApplicableValues
    simp only [h]
  · intro av h
    unfold toApplicableValues at h
    rcases h1 : s.imageID.toApplicableValue dv with e | o1
    · simp only [h1] at h
      exact Except.noConfusion h
    · rcases o1 with _ | v1
      · simp only [h1] at h
        exact Except.noConfusion h
      · simp only [h1] at h
        rcases h2 : s.instanceType.toApplicableValue dv with e | o2
        · simp only [h2] at h
          exact Except.noConfusion h
        · rcases o2 with _ | v2
          · simp only [h2] at h
            exact Except.noConfusion h
          · simp only [h2] at h
            rcases h3 : s.maxCount.toApplicableValue dv with e | o3
            · simp only [h3] at h
              exact Except.noConfusion h
            · rcases o3 with _ | v3
              · simp only [h3] at h
                exact Except.noConfusion h
              · simp only [h3] at h
                rcases h4 : s.minCount.toApplicableValue dv with e | o4
                · simp only [h4] at h
                  exact Except.noConfusion h
                · rcases o4 with _ | v4
                  · simp only [h4] at h
                    exact Except.noConfusion h
                  · simp only [h4, Except.ok.injEq] at h
                    subst h
                    exact ⟨rfl, rfl, rfl, rfl⟩

/-- C2 witness: the resolver aborts with the named missing-value error on a
spec whose ImageID has neither a literal nor a reference. -/
theorem c2_resolver_aborts_witness :
    toApplicableValues specNoImageW dvEmptyW =
      .error "no applicable value provided for ImageID" := by
  exact (c2_resolver_aborts_on_missing_value specNoImageW dvEmptyW).1 rfl

/-- C5: in a steady pass whose pending-or-running query returns more
instances than the desired max, the pass issues exactly one terminate call,
carrying exactly the prefix of length (observed − max) from the head of the
returned list, and issues no run call. -/
theorem c5_scale_down_single_terminate (kb : KubeBehavior) (pb : ProviderBehavior)
    (req : Request) (obj : EC2Instance) (instances : List Instance)
    (hget : kb.getObject = .found obj)
    (hconds : obj.conditions ≠ [])
    (hfin : containsFinalizer obj ec2InstanceFinalizer = true)
    (hdel : isMarkedForDeletion obj = false)
    (hmax : 0 ≤ obj.spec.maxCount)
    (hinst : pb.getInstancesResult
        (identityFilter req [instanceStateNamePending, instanceStateNameRunning]) =
      .ok instances)
    (hover : (instances.length : Int) > obj.spec.maxCount) :
    (reconcile kb pb req).events.filter CallEvent.isTerminateCall =
      [CallEvent.terminateCall
        (instances.take (((instances.length : Int) - obj.spec.maxCount).toNat))] ∧
    ((instances.take (((instances.length : Int) - obj.spec.maxCount).toNat)).length : Int) =
      (instances.length : Int) - obj.spec.maxCount ∧
    (reconcile kb pb req).events.filter CallEvent.isRunCall = [] := by
  have h1 : obj.conditions.isEmpty = false := by
    cases hc : obj.conditions
    · exact absurd hc hconds
    · rfl
  have htake : ((instances.take
      (((instances.length : Int) - obj.spec.maxCount).toNat)).length : Int) =
      (instances.length : Int) - obj.spec.maxCount := by
    rw [List.length_take]
    omega
  have hnotlt : ¬ ((instances.length : Int) < obj.spec.maxCount) := by omega
  unfold reconcile
  rw [hget]
  unfold reconcileLoaded
  simp only [h1, Bool.false_eq_true, if_false, hfin, hdel, not_true, and_self, if_true,
    Bool.true_eq_false, false_and, not_false_eq_true]
  unfold steadyReconcile
  simp only [hinst]
  rw [if_pos hover]
  rcases hterm : pb.terminateResult
      (instances.take (((instances.length : Int) - obj.spec.maxCount).toNat)) with e | u
  · simp only [hterm]
    refine ⟨?_, htake, ?_⟩ <;>
      simp [List.filter, CallEvent.isTerminateCall, CallEvent.isRunCall]
  · simp only [hterm]
    rw [if_pos hover, if_neg hnotlt]
    rcases hg2 : pb.getInstancesResult (identityFilter req [instanceStateNameRunning]) with
      e | l2
    · simp only [hg2]
      refine ⟨?_, htake, ?_⟩ <;>
        simp [List.filter, CallEvent.isTerminateCall, CallEvent.isRunCall]
    · simp only [hg2]
      rcases hcu : kb.createOrUpdateResult with e | u2
      · simp only [hcu]
        refine ⟨?_, htake, ?_⟩ <;>
          simp [List.filter, CallEvent.isTerminateCall, CallEvent.isRunCall]
      · simp only [hcu]
        refine ⟨?_, htake, ?_⟩ <;>
          simp [List.filter, CallEvent.isTerminateCall, CallEvent.isRunCall]

/-- C5 witness: two observed instances against max one yields exactly one
terminate call carrying exactly the first observed instance and no run
call. -/
theorem c5_scale_down_witness :
    (reconcile kbOkW pbScaleDownW reqW).events.filter CallEvent.isTerminateCall =
      [CallEvent.terminateCall [iW1]] ∧
    (reconcile kbOkW pbScaleDownW reqW).events.filter CallEvent.isRunCall = [] := by
  have h := c5_scale_down_single_terminate kbOkW pbScaleDownW reqW objW [iW1, iW2]
    rfl (by decide) (by decide) rfl (by decide) (by decide) (by decide)
  refine ⟨?_, h.2.2⟩
  rw [h.1]
  decide

/-- Helper: find? for the Ready type on a condition list extended with a
Ready condition none of whose type was present. -/
theorem find_ready_append (conds : List Condition) (c : Condition)
    (h : c.condType = conditionTypeReady)
    (hnone : conds.any (fun x => x.condType = c.condType) = false) :
    (conds ++ [c]).find? (fun x => x.condType = conditionTypeReady) = some c := by
  induction conds with
  | nil => simp [List.find?, h]
  | cons a as ih =>
    simp only [List.any_cons, Bool.or_eq_false_iff, decide_eq_false_iff_not] at hnone
    simp only [List.cons_append, List.find?]
    rw [show (decide (a.condType = conditionTypeReady)) = false by simp [h ▸ hnone.1]]
    exact ih (by simp [hnone.2])

/-- Helper: find? for the Ready type after the replacing branch of
SetStatusCondition. -/
theorem find_ready_replace (conds : List Condition) (c : Condition)
    (h : c.condType = conditionTypeReady)
    (hsome : conds.any (fun x => x.condType = c.condType) = true) :
    (conds.map (fun x => if x.condType = c.condType then c else x)).find?
      (fun x => x.condType = conditionTypeReady) = some c := by
  induction conds with
  | nil => simp at hsome
  | cons a as ih =>
    simp only [List.map_cons, List.find?]
    by_cases ha : a.condType = c.condType
    · simp only [if_pos ha]
      rw [show (decide (c.condType = conditionTypeReady)) = true by simp [h]]
    · simp only [if_neg ha]
      rw [show (decide (a.condType = conditionTypeReady)) = false by simp [h ▸ ha]]
      simp only [List.any_cons, Bool.or_eq_true, decide_eq_true_eq] at hsome
      rcases hsome with h2 | h2
      · exact absurd h2 ha
      · exact ih (by simpa using h2)

/-- Helper: SetStatusCondition leaves the written Ready condition as the
one found under the Ready type. -/
theorem find_ready_after_set (conds : List Condition) (c : Condition)
    (h : c.condType = conditionTypeReady) :
    (setStatusCondition conds c).find? (fun x => x.condType = conditionTypeReady) = some c := by
  unfold setStatusCondition
  rcases hany : conds.any (fun x => x.condType = c.condType) with _ | _
  · rw [if_neg (by simp [hany])]
    exact find_ready_append conds c h hany
  · rw [if_pos (by simp [hany])]
    exact find_ready_replace conds c h hany

/-- C7 counterexample: a waiter timeout and a waiter provider error, fed
through the client wait operation into two otherwise identical reconcile
passes, produce the SAME Ready-condition reason WaitForRunningError — the
controller does not map the two outcomes to different reasons. -/
theorem c7_same_reason_counterexample :
    readyReason (reconcile kbOkW pbWaitTimeoutW reqW) = some "WaitForRunningError" ∧
    readyReason (reconcile kbOkW pbWaitApiErrW reqW) = some "WaitForRunningError" ∧
    readyReason (reconcile kbOkW pbWaitTimeoutW reqW) =
      readyReason (reconcile kbOkW pbWaitApiErrW reqW) := by
  decide

/-- C7 amended: the wait step of the client returns both a timeout and a
provider error through its one error return value, and the controller maps
every wait failure, whatever the error text e, to the single Ready reason
WaitForRunningError with e embedded in the condition message. -/
theorem c7_wait_failure_single_reason (kb : KubeBehavior) (pb : ProviderBehavior)
    (req : Request) (obj : EC2Instance) (instances created : List Instance) (e : String)
    (hget : kb.getObject = .found obj)
    (hconds : obj.conditions ≠ [])
    (hfin : containsFinalizer obj ec2InstanceFinalizer = true)
    (hdel : isMarkedForDeletion obj = false)
    (hinst : pb.getInstancesResult
        (identityFilter req [instanceStateNamePending, instanceStateNameRunning]) =
      .ok instances)
    (hunder : (instances.length : Int) < obj.spec.maxCount)
    (hrun : pb.runResult
        { maxCount := (adjustMaxMinInstanceCount (instances.length : Int)
            obj.spec.maxCount obj.spec.minCount).1,
          minCount := (adjustMaxMinInstanceCount (instances.length : Int)
            obj.spec.maxCount obj.spec.minCount).2,
          imageId := obj.spec.imageId, instanceType := obj.spec.instanceType,
          tags := makeInstanceTags req obj.spec.tags } = .ok created)
    (hwait : pb.waitResult
        (identityFilter req [instanceStateNamePending, instanceStateNameRunning]) 120 =
      some e) :
    (reconcile kb pb req).obj =
      some (setReadyCondition obj "False" "WaitForRunningError"
        ("Encountered error waiting for running state: " ++ e)) ∧
    readyReason (reconcile kb pb req) = some "WaitForRunningError" := by
  have h1 : obj.conditions.isEmpty = false := by
    cases hc : obj.conditions
    · exact absurd hc hconds
    · rfl
  have hnotgt : ¬ ((instances.length : Int) > obj.spec.maxCount) := by omega
  unfold reconcile
  rw [hget]
  unfold reconcileLoaded
  simp only [h1, Bool.false_eq_true, if_false, hfin, hdel, not_true, and_self, if_true,
    Bool.true_eq_false, false_and, not_false_eq_true]
  unfold steadyReconcile
  simp only [hinst, if_neg hnotgt, if_pos hunder, hrun, hwait]
  refine ⟨trivial, ?_⟩
  unfold readyReason
  simp only [setReadyCondition]
  rw [find_ready_after_set _ _ rfl]

/-- C7 witness: a timed-out wait in a concrete scale-up pass yields the
Ready reason WaitForRunningError. -/
theorem c7_wait_failure_witness :
    readyReason (reconcile kbOkW pbWaitTimeoutW reqW) = some "WaitForRunningError" := by
  have h := c7_wait_failure_single_reason kbOkW pbWaitTimeoutW reqW objW [] [iW1]
    "exceeded max wait time for InstanceRunning waiter"
    rfl (by decide) (by decide) rfl (by decide) (by decide) rfl rfl
  exact h.2

/-- C8 amended: the terminate operation always issues exactly one provider
request carrying one id per given instance (the empty list included) and
returns the provider result unchanged; in particular a deletion pass whose
identity query finds no instances still issues a terminate call with the
empty list. -/
theorem c8_terminate_always_calls (api : TerminateApi) (instances : List Instance)
    (kb : KubeBehavior) (pb : ProviderBehavior) (req : Request) (obj : EC2Instance)
    (hget : kb.getObject = .found obj)
    (hconds : obj.conditions ≠ [])
    (hfin : containsFinalizer obj ec2InstanceFinalizer = true)
    (hdel : isMarkedForDeletion obj = true)
    (hinst : pb.getInstancesResult (identityFilter req []) = .ok []) :
    (terminateInstances api instances).1 =
      [instances.map (fun inst => inst.instanceId)] ∧
    (terminateInstances api instances).2 =
      api (instances.map (fun inst => inst.instanceId)) ∧
    (reconcile kb pb req).events =
      [.getInstancesCall (identityFilter req []), .terminateCall []] := by
  refine ⟨rfl, rfl, ?_⟩
  have h1 : obj.conditions.isEmpty = false := by
    cases hc : obj.conditions
    · exact absurd hc hconds
    · rfl
  have hmem : ec2InstanceFinalizer ∈ obj.finalizers := by
    have h : obj.finalizers.contains ec2InstanceFinalizer = true := hfin
    simpa using h
  unfold reconcile
  rw [hget]
  unfold reconcileLoaded
  simp only [h1, Bool.false_eq_true, if_false, hfin, hdel, not_true, and_self, if_true,
    doFinalizerOperations, hinst]
  rcases hterm : pb.terminateResult [] with e | u
  · simp [hterm]
  · simp [hterm, removeFinalizer, hmem]

/-- C8 witness: with a provider that rejects empty id lists, terminating
the empty instance list still issues one request, and a deletion pass that
finds no instances still issues the empty terminate call. -/
theorem c8_terminate_always_calls_witness :
    (terminateInstances apiMissingParamW []).1 = [[]] ∧
    (reconcile kbDelW pbDelEmptyW reqW).events =
      [CallEvent.getInstancesCall (identityFilter reqW []), CallEvent.terminateCall []] := by
  have h := c8_terminate_always_calls apiMissingParamW [] kbDelW pbDelEmptyW reqW objDelW
    rfl (by decide) (by decide) rfl rfl
  exact ⟨h.1, h.2.2⟩

end AwsEc2
